import Mathlib

/-!
Verification of the droplet repository's confidential-commitment types
(`elements-fun/src/confidential.rs`) and BIP143-style signature-hash engine
(`src/bip143.rs`) against its natural-language specification.

Shallow embedding conventions:
* bytes are `Nat` (values < 256 where it matters; no arithmetic overflows occur),
  byte strings are `List Nat`;
* the consensus encodings of external collaborator structures (outpoints,
  scripts, issuance records, transaction outputs) are carried as opaque byte
  lists inside the data model, as the spec places those encoders out of scope;
* the sha256d hash primitive is an external collaborator, so every definition
  is parameterised over a hash function `H : List Nat → List Nat`;
* Rust panics (out-of-bounds indexing) are modelled as `Option.none`;
* fallible byte sinks (`io::Write`) are modelled by an optional byte capacity:
  `none` is an infallible sink (the in-memory hash accumulator), `some cp`
  fails with `IOError` once more than `cp` bytes would have been written.
-/

/-- The `encode::Error` variants relevant to this core: `ParseFailed` (the
source's length failure, the spec's `InvalidLength`), the invalid-tag error,
and a sink I/O failure. -/
inductive EncodeError where
  | ParseFailed (msg : String)
  | InvalidConfidentialPrefix (tag : Nat)
  | IOError
deriving DecidableEq, Repr

/-! ## Confidential commitments (`elements-fun/src/confidential.rs`) -/

/-- The 33-byte payload underlying `AssetCommitment`, `ValueCommitment` and
`NonceCommitment` (each is a newtype over `[u8; 33]`). -/
structure CCommitment where
  data : List Nat
deriving DecidableEq, Repr

/-- One instantiation of `impl_confidential_commitment!`: the pair of valid
tag bytes of a commitment variant. -/
structure CommitmentKind where
  prefixA : Nat
  prefixB : Nat
deriving DecidableEq, Repr

/-- `impl_confidential_commitment!(AssetCommitment, 0x0a, 0x0b)` -/
def AssetCommitment : CommitmentKind := ⟨0x0a, 0x0b⟩

/-- `impl_confidential_commitment!(ValueCommitment, 0x08, 0x09)` -/
def ValueCommitment : CommitmentKind := ⟨0x08, 0x09⟩

/-- `impl_confidential_commitment!(NonceCommitment, 0x02, 0x03)` -/
def NonceCommitment : CommitmentKind := ⟨0x02, 0x03⟩

/-- `is_valid_prefix(tag) = tag == $prefixA || tag == $prefixB` -/
def CommitmentKind.is_valid_prefix (k : CommitmentKind) (tag : Nat) : Bool :=
  tag == k.prefixA || tag == k.prefixB

/-- `$name::new(tag, commitment)`: length check first (the spec's
`InvalidLength`), then the tag check, then assembles `[tag, body...]`. -/
def CommitmentKind.new (k : CommitmentKind) (tag : Nat) (commitment : List Nat) :
    Except EncodeError CCommitment :=
  if commitment.length ≠ 32 then
    .error (.ParseFailed "commitments must be 32 bytes long")
  else if ¬ k.is_valid_prefix tag then
    .error (.InvalidConfidentialPrefix tag)
  else
    .ok ⟨tag :: commitment⟩

/-- `$name::from_slice(bytes) = Self::new(bytes[0], &bytes[1..])`.
`bytes[0]` panics (`none`) when `bytes` is empty. -/
def CommitmentKind.from_slice (k : CommitmentKind) (bytes : List Nat) :
    Option (Except EncodeError CCommitment) :=
  match bytes with
  | [] => none
  | b :: rest => some (k.new b rest)

/-- `$name::commitment()`: the 33-byte wire form (the spec's `to_bytes`). -/
def CCommitment.commitment (c : CCommitment) : List Nat :=
  c.data

/-- `$name::encoded_length() = 33` -/
def CCommitment.encoded_length (_c : CCommitment) : Nat :=
  33

/-! ### Structured (serde) serialization of commitments -/

/-- The serde data model as far as these impls use it: integers, byte arrays
and sequences. -/
inductive SerdeValue where
  | nat (n : Nat)
  | bytes (bs : List Nat)
  | seq (xs : List SerdeValue)

/-- The `Serialize` impl: `serialize_seq` emitting a single element, the whole
33-byte array (`seq.serialize_element(self.0.as_ref())`); the sequence-length
hint `Some(33)` is metadata, not an element. -/
def serializeCommitment (c : CCommitment) : SerdeValue :=
  SerdeValue.seq [SerdeValue.bytes c.data]

/-- The `Deserialize` impl (`CommitVisitor::visit_seq`): read a `u8` tag
element, reject a tag outside the variant's pair, read a `[u8; 32]` element,
then run `$name::new`. A first element that is not an integer, or a second
element that is not a 32-byte array, is a serde type error. -/
def deserializeCommitment (k : CommitmentKind) (v : SerdeValue) :
    Except String CCommitment :=
  match v with
  | SerdeValue.seq [] => .error "missing prefix"
  | SerdeValue.seq (e₁ :: rest) =>
    match e₁ with
    | SerdeValue.nat tag =>
      if tag ≠ k.prefixA ∧ tag ≠ k.prefixB then
        .error "missing commitment"
      else
        match rest with
        | SerdeValue.bytes bs :: _ =>
          if bs.length = 32 then
            match k.new tag bs with
            | .ok cmt => .ok cmt
            | .error _ => .error "commitment construction failed"
          else .error "invalid element type"
        | [] => .error "missing commitment"
        | _ => .error "invalid element type"
    | _ => .error "invalid element type"
  | _ => .error "expected a sequence"

/-- Concrete commitment used as the failing input of the serde round-trip. -/
def cval : CCommitment :=
  ⟨0x08 :: List.replicate 32 1⟩

/-! ## Signature-hash engine (`src/bip143.rs`) -/

/-- Little-endian consensus encoding of a `u32` (4 bytes). -/
def encodeU32 (n : Nat) : List Nat :=
  [n % 256, n / 2 ^ 8 % 256, n / 2 ^ 16 % 256, n / 2 ^ 24 % 256]

/-- Little-endian consensus encoding of a `u64` (8 bytes). -/
def encodeU64 (n : Nat) : List Nat :=
  [n % 256, n / 2 ^ 8 % 256, n / 2 ^ 16 % 256, n / 2 ^ 24 % 256,
   n / 2 ^ 32 % 256, n / 2 ^ 40 % 256, n / 2 ^ 48 % 256, n / 2 ^ 56 % 256]

/-- `sha256d::Hash::default()`, consensus-encoded: 32 zero bytes. -/
def zero_hash : List Nat :=
  List.replicate 32 0

/-- Modelled from the spec: `transaction::SigHashType`'s base modes. The
`transaction` module of this repository is not under `src/`; the spec
specifies only the split of a sighash type into a base mode
`{ALL, NONE, SINGLE}` and an `anyone_can_pay` flag. -/
inductive SigHashBase where
  | All
  | None
  | Single
deriving DecidableEq, Repr

/-- Modelled from the spec: a sighash type is a base mode together with the
`anyone_can_pay` flag. -/
structure SigHashType where
  base : SigHashBase
  anyone_can_pay : Bool
deriving DecidableEq, Repr

/-- `SigHashType::split_anyonecanpay_flag()` as the spec describes it. -/
def SigHashType.split_anyonecanpay_flag (t : SigHashType) : SigHashBase × Bool :=
  (t.base, t.anyone_can_pay)

/-- Modelled from the spec: the 4-byte encoded form of a sighash type
(`SigHashType::as_u32`), base value 1/2/3 plus `0x80` for `anyone_can_pay`. -/
def SigHashType.as_u32 (t : SigHashType) : Nat :=
  (match t.base with
   | SigHashBase.All => 1
   | SigHashBase.None => 2
   | SigHashBase.Single => 3) + (if t.anyone_can_pay then 0x80 else 0)

/-- A transaction input as the engine reads it. The outpoint and the issuance
record are external collaborator structures, carried as their consensus
encodings; `has_issuance` is the source's `TxIn::has_issuance()` predicate. -/
structure TxIn where
  previous_output : List Nat
  sequence : Nat
  asset_issuance : List Nat
  has_issuance : Bool
deriving DecidableEq, Repr

/-- A transaction output, carried as its consensus encoding (the engine only
ever consensus-encodes whole outputs). -/
structure TxOut where
  consensus_encoding : List Nat
deriving DecidableEq, Repr

/-- The transaction fields the engine reads. -/
structure Transaction where
  version : Nat
  input : List TxIn
  output : List TxOut
  lock_time : Nat
deriving DecidableEq, Repr

/-- The digest of every input's previous outpoint, in input order (the body of
`SigHashCache::hash_prevouts`; the spec's `prevouts_digest`). -/
def prevouts_digest (H : List Nat → List Nat) (tx : Transaction) : List Nat :=
  H (tx.input.map TxIn.previous_output).flatten

/-- The digest of every input's sequence number, in input order (the body of
`SigHashCache::hash_sequence`; the spec's `sequence_digest`). -/
def sequence_digest (H : List Nat → List Nat) (tx : Transaction) : List Nat :=
  H (tx.input.map (fun txin => encodeU32 txin.sequence)).flatten

/-- The digest of every input's issuance record, or a single zero byte for an
input with no issuance (the body of `SigHashCache::hash_issuances`; the
spec's `issuances_digest`). -/
def issuances_digest (H : List Nat → List Nat) (tx : Transaction) : List Nat :=
  H (tx.input.map
      (fun txin => if txin.has_issuance then txin.asset_issuance else [0])).flatten

/-- The digest of every output, in order (the body of
`SigHashCache::hash_outputs`; the spec's `outputs_digest`). -/
def outputs_digest (H : List Nat → List Nat) (tx : Transaction) : List Nat :=
  H (tx.output.map TxOut.consensus_encoding).flatten

/-- The digest of the single output at `input_index` (the uncached SINGLE-mode
hash in `encode_signing_data_to`; the spec's `single_output_digest`). The
default is irrelevant: the engine only evaluates this under an in-range guard. -/
def single_output_digest (H : List Nat → List Nat) (tx : Transaction)
    (input_index : Nat) : List Nat :=
  H (tx.output.getD input_index ⟨[]⟩).consensus_encoding

/-- `SigHashCache`: the transaction reference plus the four lazily-memoized
digest slots. -/
structure SigHashCache where
  tx : Transaction
  hash_prevouts : Option (List Nat)
  hash_sequence : Option (List Nat)
  hash_outputs : Option (List Nat)
  hash_issuances : Option (List Nat)
deriving DecidableEq, Repr

/-- `SigHashCache::new(tx)`: all four slots empty. -/
def SigHashCache.new (tx : Transaction) : SigHashCache :=
  ⟨tx, none, none, none, none⟩

/-- `SigHashCache::hash_prevouts()` (`get_or_insert_with`): return the cached
digest, or compute, store and return it. Named `hashPrevouts` because the
slot itself keeps the source's name `hash_prevouts`. -/
def SigHashCache.hashPrevouts (H : List Nat → List Nat) (c : SigHashCache) :
    List Nat × SigHashCache :=
  match c.hash_prevouts with
  | some h => (h, c)
  | none => (prevouts_digest H c.tx, { c with hash_prevouts := some (prevouts_digest H c.tx) })

/-- `SigHashCache::hash_sequence()`. -/
def SigHashCache.hashSequence (H : List Nat → List Nat) (c : SigHashCache) :
    List Nat × SigHashCache :=
  match c.hash_sequence with
  | some h => (h, c)
  | none => (sequence_digest H c.tx, { c with hash_sequence := some (sequence_digest H c.tx) })

/-- `SigHashCache::hash_issuances()`. -/
def SigHashCache.hashIssuances (H : List Nat → List Nat) (c : SigHashCache) :
    List Nat × SigHashCache :=
  match c.hash_issuances with
  | some h => (h, c)
  | none => (issuances_digest H c.tx, { c with hash_issuances := some (issuances_digest H c.tx) })

/-- `SigHashCache::hash_outputs()`. -/
def SigHashCache.hashOutputs (H : List Nat → List Nat) (c : SigHashCache) :
    List Nat × SigHashCache :=
  match c.hash_outputs with
  | some h => (h, c)
  | none => (outputs_digest H c.tx, { c with hash_outputs := some (outputs_digest H c.tx) })

/-- One write to the sink. `cap = none` is an infallible sink; `cap = some cp`
fails with `IOError` once more than `cp` total bytes would be written. -/
def wr (cap : Option Nat) (acc bs : List Nat) : Except EncodeError (List Nat) :=
  match cap with
  | none => .ok (acc ++ bs)
  | some cp => if acc.length + bs.length ≤ cp then .ok (acc ++ bs) else .error .IOError


/-- `SigHashCache::encode_signing_data_to(writer, input_index, script_code,
value, sighash_type)`, translated statement by statement. Each digest field
is computed (mutating the cache) and then written, exactly in source order;
sequential writes with no interleaved cache access are merged into one `wr`
call, which is observationally identical under the capacity sink model. The
unguarded `self.tx.input[input_index]` indexing is the `none` (panic) exit.
Returns the outcome (`none` = panic, `some (.error e)` = early `Err` return,
`some (.ok bytes)` = `Ok(())` with `bytes` written) and the final cache. -/
def SigHashCache.encode_signing_data_to (H : List Nat → List Nat)
    (cap : Option Nat) (c : SigHashCache) (input_index : Nat)
    (script_code : List Nat) (value : Nat) (sighash_type : SigHashType) :
    Option (Except EncodeError (List Nat)) × SigHashCache :=
  let sighash := (sighash_type.split_anyonecanpay_flag).1
  let anyone_can_pay := (sighash_type.split_anyonecanpay_flag).2
  match wr cap [] (encodeU32 c.tx.version) with
  | .error e => (some (.error e), c)
  | .ok a₀ =>
  let dc₁ := if anyone_can_pay = false then c.hashPrevouts H else (zero_hash, c)
  match wr cap a₀ dc₁.1 with
  | .error e => (some (.error e), dc₁.2)
  | .ok a₁ =>
  let dc₂ :=
    if anyone_can_pay = false ∧ sighash ≠ SigHashBase.Single ∧ sighash ≠ SigHashBase.None then
      dc₁.2.hashSequence H
    else (zero_hash, dc₁.2)
  match wr cap a₁ dc₂.1 with
  | .error e => (some (.error e), dc₂.2)
  | .ok a₂ =>
  let dc₃ := if anyone_can_pay = false then dc₂.2.hashIssuances H else (zero_hash, dc₂.2)
  match wr cap a₂ dc₃.1 with
  | .error e => (some (.error e), dc₃.2)
  | .ok a₃ =>
  match c.tx.input.get? input_index with
  | none => (none, dc₃.2)
  | some txin =>
  match wr cap a₃ (txin.previous_output ++ script_code ++ encodeU64 value
      ++ encodeU32 txin.sequence
      ++ (if txin.has_issuance then txin.asset_issuance else [])) with
  | .error e => (some (.error e), dc₃.2)
  | .ok a₄ =>
  let dc₄ :=
    if sighash ≠ SigHashBase.Single ∧ sighash ≠ SigHashBase.None then
      dc₃.2.hashOutputs H
    else if sighash = SigHashBase.Single ∧ input_index < c.tx.output.length then
      (single_output_digest H c.tx input_index, dc₃.2)
    else (zero_hash, dc₃.2)
  match wr cap a₄ dc₄.1 with
  | .error e => (some (.error e), dc₄.2)
  | .ok a₅ =>
  match wr cap a₅ (encodeU32 c.tx.lock_time
      ++ encodeU32 sighash_type.as_u32) with
  | .error e => (some (.error e), dc₄.2)
  | .ok a₆ => (some (.ok a₆), dc₄.2)

/-- `SigHashCache::signature_hash`: build the signing data into the in-memory
hash engine (an infallible sink, `cap = none`) and digest it. The source's
`.expect("engines don't error")` turns an `Err` into a panic, as does the
out-of-range indexing panic propagating. -/
def SigHashCache.signature_hash (H : List Nat → List Nat) (c : SigHashCache)
    (input_index : Nat) (script_code : List Nat) (value : Nat)
    (sighash_type : SigHashType) : Option (List Nat) × SigHashCache :=
  match c.encode_signing_data_to H none input_index script_code value sighash_type with
  | (some (.ok bs), cc) => (some (H bs), cc)
  | (_, cc) => (none, cc)

/-- The preimage bytes as a pure function of the transaction, mirroring the
spec's `build_preimage` field order; `txin` is the input at `input_index`.
The bridge lemma below proves `encode_signing_data_to` on a fresh cache and
an infallible sink produces exactly these bytes. -/
def build_preimage (H : List Nat → List Nat) (tx : Transaction)
    (input_index : Nat) (script_code : List Nat) (value : Nat)
    (t : SigHashType) (txin : TxIn) : List Nat :=
  encodeU32 tx.version
  ++ (if t.anyone_can_pay = false then prevouts_digest H tx else zero_hash)
  ++ (if t.anyone_can_pay = false ∧ t.base ≠ SigHashBase.Single ∧ t.base ≠ SigHashBase.None
      then sequence_digest H tx else zero_hash)
  ++ (if t.anyone_can_pay = false then issuances_digest H tx else zero_hash)
  ++ txin.previous_output ++ script_code ++ encodeU64 value
  ++ encodeU32 txin.sequence
  ++ (if txin.has_issuance then txin.asset_issuance else [])
  ++ (if t.base ≠ SigHashBase.Single ∧ t.base ≠ SigHashBase.None then outputs_digest H tx
      else if t.base = SigHashBase.Single ∧ input_index < tx.output.length
      then single_output_digest H tx input_index else zero_hash)
  ++ encodeU32 tx.lock_time ++ encodeU32 t.as_u32

/-- The populated slots of `c` survive, with the same digest, into `d`. -/
def cachePreserved (c d : SigHashCache) : Prop :=
  (∀ h, c.hash_prevouts = some h → d.hash_prevouts = some h) ∧
  (∀ h, c.hash_sequence = some h → d.hash_sequence = some h) ∧
  (∀ h, c.hash_outputs = some h → d.hash_outputs = some h) ∧
  (∀ h, c.hash_issuances = some h → d.hash_issuances = some h)

/-! ### Concrete instances used by witnesses and counterexamples -/

/-- A concrete stand-in for the external hash primitive: 32 bytes, each the
input length plus one (mod 256). Deterministic, always 32 bytes, and nonzero
on every input shorter than 255 bytes. -/
def Hc : List Nat → List Nat :=
  fun l => List.replicate 32 ((l.length + 1) % 256)

/-- A concrete input with no issuance. -/
def txin0 : TxIn := ⟨[9, 9, 9, 9], 5, [], false⟩

/-- A concrete input carrying an issuance record. -/
def txin1 : TxIn := ⟨[8, 8, 8, 8], 6, [7, 7], true⟩

/-- A concrete transaction: version 2, two inputs, one output, lock time 0. -/
def tx0 : Transaction := ⟨2, [txin0, txin1], [⟨[3, 3]⟩], 0⟩

/-- A cache for `tx0` whose prevouts slot is already populated. -/
def c9c : SigHashCache := ⟨tx0, some [42], none, none, none⟩

/-! ## Helper lemmas -/

theorem wr_error {cap : Option Nat} {acc bs : List Nat} {e : EncodeError}
    (h : wr cap acc bs = .error e) : e = EncodeError.IOError := by
  unfold wr at h
  cases cap with
  | none => simp at h
  | some cp =>
    by_cases hc : acc.length + bs.length ≤ cp <;> simp [hc] at h
    exact h.symm

/-- Bridge from the stateful engine to the pure preimage: on a fresh cache and
an infallible sink, `encode_signing_data_to` succeeds with exactly the
`build_preimage` bytes. -/
theorem encode_new_ok (H : List Nat → List Nat) (tx : Transaction) (i : Nat)
    (s : List Nat) (v : Nat) (t : SigHashType) (h : i < tx.input.length) :
    (SigHashCache.encode_signing_data_to H none (SigHashCache.new tx) i s v t).1
      = some (Except.ok (build_preimage H tx i s v t (tx.input.get ⟨i, h⟩))) := by
  rcases t with ⟨base, acp⟩
  simp only [SigHashCache.encode_signing_data_to, SigHashCache.new, wr,
    SigHashCache.hashPrevouts, SigHashCache.hashSequence, SigHashCache.hashIssuances,
    SigHashCache.hashOutputs, SigHashType.split_anyonecanpay_flag, build_preimage]
  cases acp <;> cases base <;>
    simp [List.append_assoc, List.getElem?_eq_getElem h] <;>
    (try (split <;> simp [List.append_assoc]))

/-- Every outcome of `encode_signing_data_to` is a success, an `IOError`, or
the out-of-range panic; no other error is ever produced. -/
theorem encode_shape (H : List Nat → List Nat) (cap : Option Nat)
    (c : SigHashCache) (i : Nat) (s : List Nat) (v : Nat) (t : SigHashType)
    (r : Option (Except EncodeError (List Nat)) × SigHashCache)
    (hr : SigHashCache.encode_signing_data_to H cap c i s v t = r) :
    (∃ bs, r.1 = some (.ok bs))
    ∨ r.1 = some (.error EncodeError.IOError)
    ∨ r.1 = none := by
  simp only [SigHashCache.encode_signing_data_to] at hr
  repeat' split at hr
  all_goals subst hr
  all_goals first
    | exact Or.inl ⟨_, rfl⟩
    | exact Or.inr (Or.inr rfl)
    | (cases wr_error (by assumption); exact Or.inr (Or.inl rfl))

theorem encode_none_cases (H : List Nat → List Nat) (c : SigHashCache) (i : Nat)
    (s : List Nat) (v : Nat) (t : SigHashType) :
    (i < c.tx.input.length →
      ∃ bs, (SigHashCache.encode_signing_data_to H none c i s v t).1 = some (.ok bs))
    ∧ (c.tx.input.length ≤ i →
      (SigHashCache.encode_signing_data_to H none c i s v t).1 = none) := by
  simp only [SigHashCache.encode_signing_data_to, wr]
  constructor
  · intro h
    simp [List.getElem?_eq_getElem h]
  · intro h
    simp [List.getElem?_eq_none_iff.mpr h]

theorem pres_refl (c : SigHashCache) : cachePreserved c c :=
  ⟨fun _ h => h, fun _ h => h, fun _ h => h, fun _ h => h⟩

theorem pres_trans {a b d : SigHashCache} (h₁ : cachePreserved a b)
    (h₂ : cachePreserved b d) : cachePreserved a d :=
  ⟨fun x h => h₂.1 x (h₁.1 x h), fun x h => h₂.2.1 x (h₁.2.1 x h),
   fun x h => h₂.2.2.1 x (h₁.2.2.1 x h), fun x h => h₂.2.2.2 x (h₁.2.2.2 x h)⟩

theorem pres_hashPrevouts (H : List Nat → List Nat) (c : SigHashCache) :
    cachePreserved c (SigHashCache.hashPrevouts H c).2 := by
  unfold SigHashCache.hashPrevouts
  cases hc : c.hash_prevouts with
  | some h => exact pres_refl c
  | none => exact ⟨fun x hx => by simp_all, fun x hx => hx, fun x hx => hx, fun x hx => hx⟩

theorem pres_hashSequence (H : List Nat → List Nat) (c : SigHashCache) :
    cachePreserved c (SigHashCache.hashSequence H c).2 := by
  unfold SigHashCache.hashSequence
  cases hc : c.hash_sequence with
  | some h => exact pres_refl c
  | none => exact ⟨fun x hx => hx, fun x hx => by simp_all, fun x hx => hx, fun x hx => hx⟩

theorem pres_hashIssuances (H : List Nat → List Nat) (c : SigHashCache) :
    cachePreserved c (SigHashCache.hashIssuances H c).2 := by
  unfold SigHashCache.hashIssuances
  cases hc : c.hash_issuances with
  | some h => exact pres_refl c
  | none => exact ⟨fun x hx => hx, fun x hx => hx, fun x hx => hx, fun x hx => by simp_all⟩

theorem pres_hashOutputs (H : List Nat → List Nat) (c : SigHashCache) :
    cachePreserved c (SigHashCache.hashOutputs H c).2 := by
  unfold SigHashCache.hashOutputs
  cases hc : c.hash_outputs with
  | some h => exact pres_refl c
  | none => exact ⟨fun x hx => hx, fun x hx => hx, fun x hx => by simp_all, fun x hx => hx⟩

theorem encode_preserves (H : List Nat → List Nat) (cap : Option Nat)
    (c : SigHashCache) (i : Nat) (s : List Nat) (v : Nat) (t : SigHashType)
    (r : Option (Except EncodeError (List Nat)) × SigHashCache)
    (hr : SigHashCache.encode_signing_data_to H cap c i s v t = r) :
    cachePreserved c r.2 := by
  simp only [SigHashCache.encode_signing_data_to] at hr
  repeat' split at hr
  all_goals subst hr
  all_goals repeat' first
    | exact pres_refl _
    | refine pres_trans ?_ (pres_hashPrevouts _ _)
    | refine pres_trans ?_ (pres_hashSequence _ _)
    | refine pres_trans ?_ (pres_hashIssuances _ _)
    | refine pres_trans ?_ (pres_hashOutputs _ _)

theorem hashPrevouts_twice (H : List Nat → List Nat) (c : SigHashCache) :
    (SigHashCache.hashPrevouts H (SigHashCache.hashPrevouts H c).2).1
      = (SigHashCache.hashPrevouts H c).1 := by
  unfold SigHashCache.hashPrevouts
  cases hc : c.hash_prevouts <;> simp [hc]

theorem hashSequence_twice (H : List Nat → List Nat) (c : SigHashCache) :
    (SigHashCache.hashSequence H (SigHashCache.hashSequence H c).2).1
      = (SigHashCache.hashSequence H c).1 := by
  unfold SigHashCache.hashSequence
  cases hc : c.hash_sequence <;> simp [hc]

theorem hashIssuances_twice (H : List Nat → List Nat) (c : SigHashCache) :
    (SigHashCache.hashIssuances H (SigHashCache.hashIssuances H c).2).1
      = (SigHashCache.hashIssuances H c).1 := by
  unfold SigHashCache.hashIssuances
  cases hc : c.hash_issuances <;> simp [hc]

theorem hashOutputs_twice (H : List Nat → List Nat) (c : SigHashCache) :
    (SigHashCache.hashOutputs H (SigHashCache.hashOutputs H c).2).1
      = (SigHashCache.hashOutputs H c).1 := by
  unfold SigHashCache.hashOutputs
  cases hc : c.hash_outputs <;> simp [hc]

theorem signature_hash_snd (H : List Nat → List Nat) (c : SigHashCache) (i : Nat)
    (s : List Nat) (v : Nat) (t : SigHashType) :
    (SigHashCache.signature_hash H c i s v t).2
      = (SigHashCache.encode_signing_data_to H none c i s v t).2 := by
  unfold SigHashCache.signature_hash
  rcases hE : SigHashCache.encode_signing_data_to H none c i s v t with ⟨r, cc⟩
  rcases r with _ | r
  · rfl
  · rcases r with e | bs <;> rfl

/-- C4 counterexample: on the empty byte string, `from_slice` panics
(out-of-bounds `bytes[0]`, modelled as `none`) instead of returning the
`InvalidLength` error the claim requires. -/
theorem C4_counterexample :
    CommitmentKind.from_slice AssetCommitment [] = none
    ∧ CommitmentKind.from_slice AssetCommitment []
        ≠ some (Except.error (EncodeError.ParseFailed "commitments must be 32 bytes long")) := by
  constructor
  · rfl
  · simp [CommitmentKind.from_slice]

/-- C4 (amended): for every NONEMPTY byte string shorter than 33 bytes,
`from_bytes` of each commitment variant returns the `InvalidLength` error
(the source's `ParseFailed "commitments must be 32 bytes long"`); on the
empty string the code panics instead of returning an error. -/
theorem C4_short_input_invalid_length (k : CommitmentKind) (bytes : List Nat)
    (hne : bytes ≠ []) (hlen : bytes.length < 33) :
    CommitmentKind.from_slice k bytes
      = some (.error (.ParseFailed "commitments must be 32 bytes long")) := by
  cases bytes with
  | nil => exact absurd rfl hne
  | cons b rest =>
    have hr : rest.length ≠ 32 := by simp at hlen; omega
    simp [CommitmentKind.from_slice, CommitmentKind.new, hr]

/-- Witness for C4 (amended) at the 1-byte input `[0]`. -/
theorem C4_witness :
    ([0] : List Nat) ≠ [] ∧ ([0] : List Nat).length < 33
    ∧ CommitmentKind.from_slice AssetCommitment [0]
        = some (.error (.ParseFailed "commitments must be 32 bytes long")) :=
  ⟨by decide, by decide, C4_short_input_invalid_length AssetCommitment [0] (by decide) (by decide)⟩

/-- C6: for each commitment variant, every tag in the variant's valid pair and
every 32-byte body, `construct(tag, body)` succeeds and
`from_bytes(to_bytes(construct(tag, body))) = construct(tag, body)`. -/
theorem C6_roundtrip (k : CommitmentKind) (tag : Nat) (body : List Nat)
    (htag : tag = k.prefixA ∨ tag = k.prefixB) (hlen : body.length = 32) :
    ∃ cmt, CommitmentKind.new k tag body = .ok cmt
      ∧ CommitmentKind.from_slice k (CCommitment.commitment cmt) = some (.ok cmt) := by
  have hv : k.is_valid_prefix tag = true := by
    rcases htag with h | h <;> simp [CommitmentKind.is_valid_prefix, h]
  refine ⟨⟨tag :: body⟩, ?_, ?_⟩ <;>
    simp [CommitmentKind.new, CommitmentKind.from_slice, CCommitment.commitment, hlen, hv]

/-- Witness for C6 at the Asset variant, tag `0x0a`, body `[7; 32]`. -/
theorem C6_witness :
    ((0x0a : Nat) = AssetCommitment.prefixA ∨ (0x0a : Nat) = AssetCommitment.prefixB)
    ∧ (List.replicate 32 7).length = 32
    ∧ ∃ cmt, CommitmentKind.new AssetCommitment 0x0a (List.replicate 32 7) = .ok cmt
        ∧ CommitmentKind.from_slice AssetCommitment (CCommitment.commitment cmt)
            = some (.ok cmt) :=
  ⟨by decide, by decide,
    C6_roundtrip AssetCommitment 0x0a (List.replicate 32 7) (by decide) (by decide)⟩

/-- C7: for each commitment variant, a tag outside its valid pair with any
32-byte body fails with `InvalidPrefix(tag)`; in particular a 33-byte string
beginning with a valid Value-commitment tag (0x08/0x09) is rejected by the
Asset- and Nonce-commitment constructors. -/
theorem C7_tag_rejection :
    (∀ (k : CommitmentKind) (tag : Nat) (body : List Nat),
        tag ≠ k.prefixA → tag ≠ k.prefixB → body.length = 32 →
        CommitmentKind.new k tag body = .error (.InvalidConfidentialPrefix tag))
    ∧ (∀ body : List Nat, body.length = 32 → ∀ tag : Nat, tag = 0x08 ∨ tag = 0x09 →
        CommitmentKind.from_slice AssetCommitment (tag :: body)
            = some (.error (.InvalidConfidentialPrefix tag))
        ∧ CommitmentKind.from_slice NonceCommitment (tag :: body)
            = some (.error (.InvalidConfidentialPrefix tag))) := by
  have core : ∀ (k : CommitmentKind) (tag : Nat) (body : List Nat),
      tag ≠ k.prefixA → tag ≠ k.prefixB → body.length = 32 →
      CommitmentKind.new k tag body = .error (.InvalidConfidentialPrefix tag) := by
    intro k tag body hA hB hlen
    simp [CommitmentKind.new, CommitmentKind.is_valid_prefix, hlen, hA, hB]
  refine ⟨core, ?_⟩
  intro body hlen tag htag
  constructor <;> rcases htag with h | h <;> subst h <;>
    simp [CommitmentKind.from_slice] <;>
    exact core _ _ _ (by decide) (by decide) hlen

/-- Witness for C7 at the Asset variant, tag `0x08`, body `[9; 32]`. -/
theorem C7_witness :
    ((0x08 : Nat) ≠ AssetCommitment.prefixA) ∧ ((0x08 : Nat) ≠ AssetCommitment.prefixB)
    ∧ (List.replicate 32 9).length = 32
    ∧ CommitmentKind.new AssetCommitment 0x08 (List.replicate 32 9)
        = .error (.InvalidConfidentialPrefix 0x08) :=
  ⟨by decide, by decide, by decide,
    C7_tag_rejection.1 AssetCommitment 0x08 (List.replicate 32 9) (by decide) (by decide) (by decide)⟩

/-- C5 (code bug, evaluated at the failing input): serde serialization of a
Value commitment emits a ONE-element sequence containing the whole 33-byte
array, not the claimed 2-element (tag, 32-byte body) sequence, and the
type's own deserializer rejects the serializer's output. -/
theorem C5_serialize_mismatch :
    CommitmentKind.new ValueCommitment 0x08 (List.replicate 32 1) = .ok cval
    ∧ serializeCommitment cval
        = SerdeValue.seq [SerdeValue.bytes (0x08 :: List.replicate 32 1)]
    ∧ serializeCommitment cval
        ≠ SerdeValue.seq [SerdeValue.nat 0x08, SerdeValue.bytes (List.replicate 32 1)]
    ∧ deserializeCommitment ValueCommitment (serializeCommitment cval)
        = .error "invalid element type" := by
  refine ⟨?_, rfl, ?_, rfl⟩
  · rfl
  · simp [serializeCommitment, cval]

/-- C1: after the version, the preimage carries three 32-byte fields gated
exactly as claimed: prevouts digest iff not `anyone_can_pay`, sequence digest
iff not `anyone_can_pay` and the base mode is neither SINGLE nor NONE,
issuances digest iff not `anyone_can_pay` (not gated by the base mode). -/
theorem C1_digest_field_gating (H : List Nat → List Nat)
    (hH : ∀ l, (H l).length = 32) (tx : Transaction) (i : Nat) (s : List Nat)
    (v : Nat) (t : SigHashType) (h : i < tx.input.length) :
    ∃ rest,
      (SigHashCache.encode_signing_data_to H none (SigHashCache.new tx) i s v t).1
        = some (Except.ok (encodeU32 tx.version
            ++ (if t.anyone_can_pay = false then prevouts_digest H tx else zero_hash)
            ++ (if t.anyone_can_pay = false ∧ t.base ≠ SigHashBase.Single
                  ∧ t.base ≠ SigHashBase.None
                then sequence_digest H tx else zero_hash)
            ++ (if t.anyone_can_pay = false then issuances_digest H tx else zero_hash)
            ++ rest))
      ∧ (if t.anyone_can_pay = false then prevouts_digest H tx else zero_hash).length = 32
      ∧ (if t.anyone_can_pay = false ∧ t.base ≠ SigHashBase.Single
            ∧ t.base ≠ SigHashBase.None
          then sequence_digest H tx else zero_hash).length = 32
      ∧ (if t.anyone_can_pay = false then issuances_digest H tx else zero_hash).length = 32 := by
  refine ⟨(tx.input.get ⟨i, h⟩).previous_output ++ s ++ encodeU64 v
      ++ encodeU32 (tx.input.get ⟨i, h⟩).sequence
      ++ (if (tx.input.get ⟨i, h⟩).has_issuance
          then (tx.input.get ⟨i, h⟩).asset_issuance else [])
      ++ (if t.base ≠ SigHashBase.Single ∧ t.base ≠ SigHashBase.None
          then outputs_digest H tx
          else if t.base = SigHashBase.Single ∧ i < tx.output.length
          then single_output_digest H tx i else zero_hash)
      ++ encodeU32 tx.lock_time ++ encodeU32 t.as_u32, ?_, ?_, ?_, ?_⟩
  · rw [encode_new_ok H tx i s v t h]
    simp [build_preimage, List.append_assoc]
  all_goals split <;>
    simp [prevouts_digest, sequence_digest, issuances_digest, zero_hash, hH]

/-- C2: in SINGLE mode with `input_index` at or past the number of outputs,
the call succeeds and the output-commitment field is exactly 32 zero bytes;
the outputs digest is never computed and no output data influences the
result (the preimage is unchanged under any replacement of the output list
whose length stays at most `input_index`). -/
theorem C2_single_out_of_range (H : List Nat → List Nat) (tx : Transaction)
    (i : Nat) (s : List Nat) (v : Nat) (t : SigHashType)
    (hb : t.base = SigHashBase.Single) (ho : tx.output.length ≤ i)
    (h : i < tx.input.length) :
    (SigHashCache.encode_signing_data_to H none (SigHashCache.new tx) i s v t).1
      = some (Except.ok (encodeU32 tx.version
          ++ (if t.anyone_can_pay = false then prevouts_digest H tx else zero_hash)
          ++ zero_hash
          ++ (if t.anyone_can_pay = false then issuances_digest H tx else zero_hash)
          ++ (tx.input.get ⟨i, h⟩).previous_output ++ s ++ encodeU64 v
          ++ encodeU32 (tx.input.get ⟨i, h⟩).sequence
          ++ (if (tx.input.get ⟨i, h⟩).has_issuance
              then (tx.input.get ⟨i, h⟩).asset_issuance else [])
          ++ zero_hash
          ++ encodeU32 tx.lock_time ++ encodeU32 t.as_u32))
    ∧ ((SigHashCache.encode_signing_data_to H none (SigHashCache.new tx) i s v t).2).hash_outputs
        = none
    ∧ ∀ out2 : List TxOut, out2.length ≤ i →
        (SigHashCache.encode_signing_data_to H none
            (SigHashCache.new { tx with output := out2 }) i s v t).1
          = (SigHashCache.encode_signing_data_to H none (SigHashCache.new tx) i s v t).1 := by
  rcases t with ⟨base, acp⟩
  cases hb
  refine ⟨?_, ?_, ?_⟩
  · rw [encode_new_ok H tx i s v _ h]
    simp [build_preimage, List.append_assoc, Nat.not_lt.mpr ho]
  · simp only [SigHashCache.encode_signing_data_to, SigHashCache.new, wr,
      SigHashCache.hashPrevouts, SigHashCache.hashSequence, SigHashCache.hashIssuances,
      SigHashCache.hashOutputs, SigHashType.split_anyonecanpay_flag]
    cases acp <;> simp [List.getElem?_eq_getElem h, Nat.not_lt.mpr ho]
  · intro out2 hout2
    rw [encode_new_ok H { tx with output := out2 } i s v _ h,
      encode_new_ok H tx i s v _ h]
    simp [build_preimage, prevouts_digest, sequence_digest, issuances_digest,
      Nat.not_lt.mpr ho, Nat.not_lt.mpr hout2]

/-- C3 counterexample: with base mode SINGLE and `anyone_can_pay` false, the
sequence field of the preimage (bytes 36..68) is 32 zero bytes, not the real
sequence digest, so toggling `anyone_can_pay` does NOT move the sequence
field between its real digest and zero for every base mode. -/
theorem C3_counterexample :
    (match (SigHashCache.encode_signing_data_to Hc none (SigHashCache.new tx0) 0 [] 0
        ⟨SigHashBase.Single, false⟩).1 with
      | some (Except.ok bs) => (bs.drop 36).take 32
      | _ => []) = zero_hash
    ∧ sequence_digest Hc tx0 ≠ zero_hash := by
  constructor
  · rfl
  · decide

/-- C3 (amended): toggling only `anyone_can_pay` switches the prevouts and
issuances fields between their real digests and 32 zero bytes, switches the
sequence field between its gated value (the real sequence digest exactly
when the base mode is ALL, zero otherwise) and 32 zero bytes, and leaves
every other byte of the preimage unchanged except the trailing 4-byte
sighash-type encoding. -/
theorem C3_acp_frame (H : List Nat → List Nat) (tx : Transaction) (i : Nat)
    (s : List Nat) (v : Nat) (base : SigHashBase) (h : i < tx.input.length) :
    ∃ mid,
      (SigHashCache.encode_signing_data_to H none (SigHashCache.new tx) i s v
          ⟨base, false⟩).1
        = some (Except.ok (encodeU32 tx.version ++ prevouts_digest H tx
            ++ (if base = SigHashBase.All then sequence_digest H tx else zero_hash)
            ++ issuances_digest H tx ++ mid
            ++ encodeU32 (SigHashType.as_u32 ⟨base, false⟩)))
      ∧ (SigHashCache.encode_signing_data_to H none (SigHashCache.new tx) i s v
          ⟨base, true⟩).1
        = some (Except.ok (encodeU32 tx.version ++ zero_hash ++ zero_hash ++ zero_hash
            ++ mid ++ encodeU32 (SigHashType.as_u32 ⟨base, true⟩))) := by
  refine ⟨(tx.input.get ⟨i, h⟩).previous_output ++ s ++ encodeU64 v
      ++ encodeU32 (tx.input.get ⟨i, h⟩).sequence
      ++ (if (tx.input.get ⟨i, h⟩).has_issuance
          then (tx.input.get ⟨i, h⟩).asset_issuance else [])
      ++ (if base ≠ SigHashBase.Single ∧ base ≠ SigHashBase.None
          then outputs_digest H tx
          else if base = SigHashBase.Single ∧ i < tx.output.length
          then single_output_digest H tx i else zero_hash)
      ++ encodeU32 tx.lock_time, ?_, ?_⟩ <;>
    rw [encode_new_ok H tx i s v _ h] <;>
    cases base <;>
    simp [build_preimage, List.append_assoc]

/-- C8: with the in-range input index, `signature_hash` always produces a
32-byte digest (building into the in-memory accumulator is infallible), and
the streaming variant fails only with `IOError` when the sink rejects a
write, never with a protocol error. -/
theorem C8_infallible (H : List Nat → List Nat) (hH : ∀ l, (H l).length = 32)
    (c : SigHashCache) (i : Nat) (s : List Nat) (v : Nat) (t : SigHashType)
    (h : i < c.tx.input.length) :
    (∃ d, (SigHashCache.signature_hash H c i s v t).1 = some d ∧ d.length = 32)
    ∧ (∀ (cap : Option Nat) (e : EncodeError),
        (SigHashCache.encode_signing_data_to H cap c i s v t).1 = some (.error e)
        → e = EncodeError.IOError) := by
  constructor
  · obtain ⟨bs, hbs⟩ := (encode_none_cases H c i s v t).1 h
    unfold SigHashCache.signature_hash
    rcases hE : SigHashCache.encode_signing_data_to H none c i s v t with ⟨r, cc⟩
    rw [hE] at hbs
    simp only at hbs
    subst hbs
    exact ⟨H bs, rfl, hH bs⟩
  · intro cap e he
    rcases encode_shape H cap c i s v t _ rfl with ⟨bs, hb⟩ | hb | hb
    · rw [hb] at he
      exact absurd he (by simp)
    · rw [hb] at he
      simp only [Option.some.injEq, Except.error.injEq] at he
      exact he.symm
    · rw [hb] at he
      exact absurd he (by simp)

/-- C9: each digest accessor returns the identical digest when called twice
on an unmodified cache, and every populated digest slot survives unchanged
through every cache operation (the four accessors, `encode_signing_data_to`
with any sink, and `signature_hash`). -/
theorem C9_cache_stable (H : List Nat → List Nat) :
    (∀ c : SigHashCache,
      (SigHashCache.hashPrevouts H (SigHashCache.hashPrevouts H c).2).1
          = (SigHashCache.hashPrevouts H c).1
      ∧ (SigHashCache.hashSequence H (SigHashCache.hashSequence H c).2).1
          = (SigHashCache.hashSequence H c).1
      ∧ (SigHashCache.hashOutputs H (SigHashCache.hashOutputs H c).2).1
          = (SigHashCache.hashOutputs H c).1
      ∧ (SigHashCache.hashIssuances H (SigHashCache.hashIssuances H c).2).1
          = (SigHashCache.hashIssuances H c).1)
    ∧ (∀ c : SigHashCache,
      cachePreserved c (SigHashCache.hashPrevouts H c).2
      ∧ cachePreserved c (SigHashCache.hashSequence H c).2
      ∧ cachePreserved c (SigHashCache.hashOutputs H c).2
      ∧ cachePreserved c (SigHashCache.hashIssuances H c).2)
    ∧ (∀ (c : SigHashCache) (cap : Option Nat) (i : Nat) (s : List Nat) (v : Nat)
        (t : SigHashType),
      cachePreserved c (SigHashCache.encode_signing_data_to H cap c i s v t).2)
    ∧ (∀ (c : SigHashCache) (i : Nat) (s : List Nat) (v : Nat) (t : SigHashType),
      cachePreserved c (SigHashCache.signature_hash H c i s v t).2) := by
  refine ⟨fun c => ⟨hashPrevouts_twice H c, hashSequence_twice H c,
      hashOutputs_twice H c, hashIssuances_twice H c⟩,
    fun c => ⟨pres_hashPrevouts H c, pres_hashSequence H c,
      pres_hashOutputs H c, pres_hashIssuances H c⟩,
    fun c cap i s v t => encode_preserves H cap c i s v t _ rfl,
    fun c i s v t => ?_⟩
  rw [signature_hash_snd]
  exact encode_preserves H none c i s v t _ rfl

/-- C10: for `input_index` at or past the number of inputs, both
`encode_signing_data_to` (infallible sink) and `signature_hash` panic
(`none`) rather than returning an error, also in the SINGLE zero-fill case. -/
theorem C10_out_of_range_panics (H : List Nat → List Nat) (c : SigHashCache)
    (i : Nat) (s : List Nat) (v : Nat) (t : SigHashType)
    (h : c.tx.input.length ≤ i) :
    (SigHashCache.encode_signing_data_to H none c i s v t).1 = none
    ∧ (SigHashCache.signature_hash H c i s v t).1 = none := by
  have h1 := (encode_none_cases H c i s v t).2 h
  refine ⟨h1, ?_⟩
  unfold SigHashCache.signature_hash
  rcases hE : SigHashCache.encode_signing_data_to H none c i s v t with ⟨r, cc⟩
  rw [hE] at h1
  simp only at h1
  subst h1
  rfl

/-- Witness for C1 on a concrete 2-input transaction with `SIGHASH_ALL`. -/
theorem C1_witness :
    (∀ l, (Hc l).length = 32) ∧ 0 < tx0.input.length
    ∧ ∃ rest,
        ((SigHashCache.encode_signing_data_to Hc none (SigHashCache.new tx0) 0 [] 0
            ⟨SigHashBase.All, false⟩).1
          = some (Except.ok (encodeU32 tx0.version ++ prevouts_digest Hc tx0
              ++ sequence_digest Hc tx0 ++ issuances_digest Hc tx0 ++ rest)))
        ∧ (prevouts_digest Hc tx0).length = 32
        ∧ (sequence_digest Hc tx0).length = 32
        ∧ (issuances_digest Hc tx0).length = 32 := by
  have hH : ∀ l, (Hc l).length = 32 := fun l => by simp [Hc]
  exact ⟨hH, by decide,
    C1_digest_field_gating Hc hH tx0 0 [] 0 ⟨SigHashBase.All, false⟩ (by decide)⟩

/-- Witness for C2 on a concrete 2-input, 1-output transaction at index 1. -/
theorem C2_witness :
    (SigHashType.mk SigHashBase.Single false).base = SigHashBase.Single
    ∧ tx0.output.length ≤ 1 ∧ 1 < tx0.input.length
    ∧ (SigHashCache.encode_signing_data_to Hc none (SigHashCache.new tx0) 1 [] 0
          ⟨SigHashBase.Single, false⟩).1
        = some (Except.ok (encodeU32 tx0.version ++ prevouts_digest Hc tx0 ++ zero_hash
            ++ issuances_digest Hc tx0 ++ txin1.previous_output ++ [] ++ encodeU64 0
            ++ encodeU32 txin1.sequence ++ txin1.asset_issuance ++ zero_hash
            ++ encodeU32 tx0.lock_time
            ++ encodeU32 (SigHashType.as_u32 ⟨SigHashBase.Single, false⟩))) := by
  exact ⟨rfl, by decide, by decide,
    (C2_single_out_of_range Hc tx0 1 [] 0 ⟨SigHashBase.Single, false⟩ rfl
      (by decide) (by decide)).1⟩

/-- Witness for C3 (amended) at base mode ALL on a concrete transaction. -/
theorem C3_witness :
    0 < tx0.input.length
    ∧ ∃ mid,
        ((SigHashCache.encode_signing_data_to Hc none (SigHashCache.new tx0) 0 [] 0
            ⟨SigHashBase.All, false⟩).1
          = some (Except.ok (encodeU32 tx0.version ++ prevouts_digest Hc tx0
              ++ sequence_digest Hc tx0 ++ issuances_digest Hc tx0 ++ mid
              ++ encodeU32 (SigHashType.as_u32 ⟨SigHashBase.All, false⟩))))
        ∧ ((SigHashCache.encode_signing_data_to Hc none (SigHashCache.new tx0) 0 [] 0
            ⟨SigHashBase.All, true⟩).1
          = some (Except.ok (encodeU32 tx0.version ++ zero_hash ++ zero_hash ++ zero_hash
              ++ mid ++ encodeU32 (SigHashType.as_u32 ⟨SigHashBase.All, true⟩)))) :=
  ⟨by decide, C3_acp_frame Hc tx0 0 [] 0 SigHashBase.All (by decide)⟩

/-- Witness for C8 on a concrete transaction at index 0. -/
theorem C8_witness :
    (∀ l, (Hc l).length = 32) ∧ 0 < tx0.input.length
    ∧ (∃ d, (SigHashCache.signature_hash Hc (SigHashCache.new tx0) 0 [] 0
          ⟨SigHashBase.All, false⟩).1 = some d ∧ d.length = 32)
    ∧ (∀ (cap : Option Nat) (e : EncodeError),
        (SigHashCache.encode_signing_data_to Hc cap (SigHashCache.new tx0) 0 [] 0
            ⟨SigHashBase.All, false⟩).1 = some (.error e)
        → e = EncodeError.IOError) := by
  have hH : ∀ l, (Hc l).length = 32 := fun l => by simp [Hc]
  exact ⟨hH, by decide,
    C8_infallible Hc hH (SigHashCache.new tx0) 0 [] 0 ⟨SigHashBase.All, false⟩ (by decide)⟩

/-- Witness for C9: repeated `hash_prevouts` on a fresh cache agrees, and a
pre-populated prevouts slot survives `encode_signing_data_to`. -/
theorem C9_witness :
    ((SigHashCache.hashPrevouts Hc
        (SigHashCache.hashPrevouts Hc (SigHashCache.new tx0)).2).1
      = (SigHashCache.hashPrevouts Hc (SigHashCache.new tx0)).1)
    ∧ ((SigHashCache.encode_signing_data_to Hc none c9c 0 [] 0
        ⟨SigHashBase.All, false⟩).2).hash_prevouts = some [42] := by
  refine ⟨((C9_cache_stable Hc).1 (SigHashCache.new tx0)).1, ?_⟩
  exact ((C9_cache_stable Hc).2.2.1 c9c none 0 [] 0 ⟨SigHashBase.All, false⟩).1 [42] rfl

/-- Witness for C10 at index 5 of a 2-input transaction in SINGLE mode. -/
theorem C10_witness :
    tx0.input.length ≤ 5
    ∧ (SigHashCache.encode_signing_data_to Hc none (SigHashCache.new tx0) 5 [] 0
        ⟨SigHashBase.Single, false⟩).1 = none
    ∧ (SigHashCache.signature_hash Hc (SigHashCache.new tx0) 5 [] 0
        ⟨SigHashBase.Single, false⟩).1 = none :=
  ⟨by decide, C10_out_of_range_panics Hc (SigHashCache.new tx0) 5 [] 0
    ⟨SigHashBase.Single, false⟩ (by decide)⟩
